import Mathlib

/-!
Shallow embedding of the selection/interaction controller of
`src/src/Select.vue` (vue3-select-component).

The component script is embedded as a state machine: the reactive refs
(`selected`, `search`, `menuOpen`, `focusedOption`) become the fields of
`State`, the props become `Props`, the `computed` views become pure
functions of props and state, and each event handler becomes a function
`Props → State → ... → State × List Ev` returning the next state and
the emitted notifications (`optionSelected` / `optionDeselected`; the
`search` emit of the watcher on line 402 is not modelled, no claim
concerns it).

JS details modelled explicitly:
* `Array.prototype.findIndex` returns `-1` on failure, so focus indices
  live in `Int` with `-1` as the "no focus" sentinel.
* `arr[i]` yields `undefined` for `i < 0` or `i ≥ length` (`jsGetElem`).
* truthiness: `!!v` on an option value is `JsTruthy.truthy`; a
  non-empty string and an array are truthy, `""`, `0` and `undefined`
  are falsy.
* `selected` is a `defineModel` ref which the component requires to be
  bound by the parent (`required: true`, used with `v-model`).  For a
  parent-bound model Vue does not update the local value inside the
  mutating handler: the assignment is emitted to the parent and the new
  value only arrives with the parent re-render, so a read of
  `selected.value` later in the same handler still sees the value from
  before the handler ran.  The only read-after-write site in the source
  is the deselection payload of `clear` (line 271), which therefore
  reads the pre-event selection.
-/

namespace VueSelect

/-- JS truthiness of an option value: models `!!v` for an `OptionValue`
(`0`, `""`, `undefined`, `NaN` are falsy in JS). -/
class JsTruthy (V : Type) where
  truthy : V → Bool

instance : JsTruthy Int := ⟨fun v => decide (v ≠ 0)⟩

instance : JsTruthy String := ⟨fun v => decide (v ≠ "")⟩

/-- One selectable option.  `types.ts` itself is not under `src/`; the
shape is the one `Select.vue` uses (`value`, `label`, optional
`groupName`, optional `disabled`), as in the spec data model (§3). -/
structure Opt (V : Type) where
  value : V
  label : String
  groupName : Option String := none
  disabled : Bool := false
  deriving DecidableEq, Repr

/-- The `v-model` value (line 132): a scalar (possibly `undefined`,
hence `Option V`) in single mode, an array in multi mode.  The model
validator (line 134) requires the shape to match `isMulti`. -/
inductive SelVal (V : Type) where
  | one : Option V → SelVal V
  | many : List V → SelVal V
  deriving DecidableEq, Repr

/-- `selected.value as OptionValue[]` — the raw value read as an array.
On a scalar the JS array methods would throw; the validator excludes
that shape in multi mode, and theorems that depend on the multi branch
carry the shape hypothesis. -/
def asList {V : Type} : SelVal V → List V
  | .many l => l
  | .one _ => []

/-- `Array.isArray(selected.value)` (line 191). -/
def isArray {V : Type} : SelVal V → Bool
  | .many _ => true
  | .one _ => false

/-- `option.value === selected.value` with `selected.value` read as a
scalar (line 201): `undefined` and an array compare unequal to any
option value. -/
def scalarEq {V : Type} [DecidableEq V] (sel : SelVal V) (v : V) : Bool :=
  match sel with
  | .one (some w) => decide (v = w)
  | _ => false

/-- `!!selected.value` (line 338): `undefined` is falsy, a scalar is as
truthy as its value, an array object is always truthy. -/
def selTruthy {V : Type} [JsTruthy V] : SelVal V → Bool
  | .one none => false
  | .one (some v) => JsTruthy.truthy v
  | .many _ => true

/-- The props that feed the controller logic (lines 10-120), with their
defaults.  DOM-only props (`teleport`, `inputId`, `aria`) are omitted. -/
structure Props (V : Type) where
  options : List (Opt V)
  displayedOptions : Option (List (Opt V)) := none
  placeholder : String := "Select an option"
  isClearable : Bool := true
  isDisabled : Bool := false
  isGrouped : Bool := false
  isSearchable : Bool := true
  isMulti : Bool := false
  isLoading : Bool := false
  shouldAutofocusOption : Bool := true
  closeOnSelect : Bool := true
  filterBy : Opt V → String → String → Bool :=
    fun _ label search => decide ((search.toLower).toList <:+: (label.toLower).toList)
  getOptionLabel : Opt V → String := fun o => o.label
  getMultiValueLabel : Opt V → String := fun o => o.label

/-- The controller-owned reactive state: `selected` (line 132),
`search` (line 141), `menuOpen` (line 142), `focusedOption`
(line 143, initial value `-1`). -/
structure State (V : Type) where
  selected : SelVal V
  search : String := ""
  menuOpen : Bool := false
  focusedOption : Int := -1
  deriving DecidableEq, Repr

/-- The notifications emitted to the host (lines 122-126).  The payload
of `optionDeselected` is `GenericOption | null` (with `undefined`
possible at runtime); `none` stands for both `null` and `undefined`. -/
inductive Ev (V : Type) where
  | optionSelected : Opt V → Ev V
  | optionDeselected : Option (Opt V) → Ev V
  deriving DecidableEq, Repr

/-- A keyboard event, as far as `handleNavigation` inspects it. -/
structure KeyEvent where
  key : String
  code : String
  deriving DecidableEq, Repr

/-- `Array.prototype.includes` (SameValueZero is plain equality for the
values modelled here). -/
def jsIncludes {V : Type} [DecidableEq V] (l : List V) (v : V) : Bool :=
  decide (v ∈ l)

/-- `Array.prototype.findIndex` where the callback receives the element
and its index; `-1` when no element matches. -/
def jsFindIndexIAux {α : Type} (p : α → Nat → Bool) : List α → Nat → Int
  | [], _ => -1
  | a :: as, i => if p a i then (i : Int) else jsFindIndexIAux p as (i + 1)

def jsFindIndexI {α : Type} (l : List α) (p : α → Nat → Bool) : Int :=
  jsFindIndexIAux p l 0

/-- `Array.prototype.findIndex` with an element-only callback. -/
def jsFindIndex {α : Type} (l : List α) (p : α → Bool) : Int :=
  jsFindIndexI l (fun a _ => p a)

/-- `arr.reduce((acc, a, i) => cond a i ? i : acc, -1)`: index of the
last element satisfying the callback, `-1` if none. -/
def jsReduceLastIdxAux {α : Type} (p : α → Nat → Bool) : List α → Nat → Int → Int
  | [], _, acc => acc
  | a :: as, i, acc => jsReduceLastIdxAux p as (i + 1) (if p a i then (i : Int) else acc)

def jsReduceLastIdx {α : Type} (l : List α) (p : α → Nat → Bool) : Int :=
  jsReduceLastIdxAux p l 0 (-1)

/-- `arr[i]` for an `Int` index: `undefined` when `i` is negative or
past the end. -/
def jsGetElem {α : Type} (l : List α) (i : Int) : Option α :=
  if 0 ≤ i then l[i.toNat]? else none

variable {V : Type}

/-- `availableOptions` (lines 145-164): the visible (pre-grouping)
option list, derived from `displayedOptions || options`, the search
text and, in multi mode, the exclusion of already-selected values. -/
def availableOptions [DecidableEq V] (p : Props V) (s : State V) : List (Opt V) :=
  let options := match p.displayedOptions with
    | some l => l
    | none => p.options
  let filterMultiSelectedValues := fun (os : List (Opt V)) =>
    os.filter (fun o => !(jsIncludes (asList s.selected) o.value))
  if p.isSearchable = true ∧ s.search ≠ "" then
    let matchingOptions := options.filter (fun o =>
      let optionLabel := if p.isMulti = true then p.getMultiValueLabel o else p.getOptionLabel o
      p.filterBy o optionLabel s.search)
    if p.isMulti = true then filterMultiSelectedValues matchingOptions else matchingOptions
  else
    if p.isMulti = true then filterMultiSelectedValues options else options

/-- `!!o.groupName` — `undefined` and `""` are falsy. -/
def groupNameTruthy : Option String → Bool
  | none => false
  | some g => decide (g ≠ "")

/-- `isGroupingEnabled` (line 168). -/
def isGroupingEnabled [DecidableEq V] (p : Props V) (s : State V) : Bool :=
  p.isGrouped && (availableOptions p s).any (fun o => groupNameTruthy o.groupName)

/-- `o.groupName || "default"` (line 175). -/
def groupKey (o : Opt V) : String :=
  match o.groupName with
  | some g => if g = "" then "default" else g
  | none => "default"

/-- Keys of `Object.groupBy` in first-occurrence order.  (JS orders
integer-like string keys first in `Object.keys`; group names of that
shape are not modelled, and no claim depends on group order.) -/
def groupKeysInOrder (l : List (Opt V)) : List String :=
  l.foldl (fun acc o => if groupKey o ∈ acc then acc else acc ++ [groupKey o]) []

/-- `availableOptionsGrouped` (lines 170-178). -/
def availableOptionsGrouped [DecidableEq V] (p : Props V) (s : State V) :
    List (String × List (Opt V)) :=
  if isGroupingEnabled p s = true then
    let avail := availableOptions p s
    (groupKeysInOrder avail).map (fun k => (k, avail.filter (fun o => groupKey o = k)))
  else
    [("default", availableOptions p s)]

/-- `availableOptionsGroupedFlat` (lines 180-186). -/
def availableOptionsGroupedFlat [DecidableEq V] (p : Props V) (s : State V) : List (Opt V) :=
  (availableOptionsGrouped p s).foldl (fun flat g => flat ++ g.2) []

/-- `selectedOptions` (lines 190-204) as a function of the raw model
value.  In multi mode the source maps each selected value through
`options.find(...)!`; a value with no matching option yields a JS
`undefined` element, modelled as `none`.  The `console.warn` for a
mis-shaped multi value (line 198) is a side effect with no state
impact and is not modelled. -/
def selectedOptions [DecidableEq V] (p : Props V) (sel : SelVal V) : List (Option (Opt V)) :=
  if p.isMulti = true ∧ isArray sel = true then
    (asList sel).map (fun v => p.options.find? (fun o => decide (o.value = v)))
  else
    match p.options.find? (fun o => scalarEq sel o.value) with
    | some found => [some found]
    | none => []

/-- `arr[0]` on a list whose elements may themselves be `undefined`. -/
def jsHead {α : Type} (l : List (Option α)) : Option α :=
  l.head?.join

/-- `openMenu` (lines 206-216); the `focusInput` DOM effect is not
modelled.  Note the autofocus seed scans `props.options`, not the
visible set. -/
def openMenu (p : Props V) (s : State V) : State V :=
  let s := { s with menuOpen := true }
  if p.shouldAutofocusOption = true then
    { s with focusedOption := jsFindIndex p.options (fun o => !o.disabled) }
  else s

/-- `closeMenu` (lines 218-221). -/
def closeMenu (s : State V) : State V :=
  { s with menuOpen := false, search := "" }

/-- `toggleMenu` (lines 223-230). -/
def toggleMenu (p : Props V) (s : State V) : State V :=
  if s.menuOpen = true then closeMenu s else openMenu p s

/-- `setOption` (lines 232-255).  In multi mode the source pushes into
the model array in place; the `input.blur()` DOM effect is not
modelled. -/
def setOption (p : Props V) (s : State V) (o : Opt V) : State V × List (Ev V) :=
  if o.disabled = true then (s, [])
  else
    let sel := if p.isMulti = true then SelVal.many (asList s.selected ++ [o.value])
      else SelVal.one (some o.value)
    let s := { s with selected := sel, search := "" }
    let s := if p.closeOnSelect = true then { s with menuOpen := false } else s
    (s, [Ev.optionSelected o])

/-- `removeOption` (lines 257-262): guarded by `isMulti` and by the
control-level `isDisabled`; filters out every value equal to
`option.value` and always emits `optionDeselected(option)`. -/
def removeOption [DecidableEq V] (p : Props V) (s : State V) (o : Opt V) :
    State V × List (Ev V) :=
  if p.isMulti = true ∧ p.isDisabled = false then
    ({ s with selected := SelVal.many ((asList s.selected).filter (fun v => decide (v ≠ o.value))) },
      [Ev.optionDeselected (some o)])
  else (s, [])

/-- `clear` (lines 264-280).  The single-mode deselection payload reads
`selectedOptions.value[0]` after assigning the model; `selected` is a
parent-bound `defineModel` ref, so that read still sees the pre-event
selection (see the module docstring) — the payload is the option that
was selected before clearing.  `input.blur()` is not modelled. -/
def clear [DecidableEq V] (p : Props V) (s : State V) : State V × List (Ev V) :=
  let pair := if p.isMulti = true then
      (SelVal.many ([] : List V), [Ev.optionDeselected (none : Option (Opt V))])
    else
      (SelVal.one (none : Option V), [Ev.optionDeselected (jsHead (selectedOptions p s.selected))])
  ({ s with selected := pair.1, menuOpen := false, search := "" }, pair.2)

/-- ArrowDown target (lines 289-292): first non-disabled index strictly
after `c`, else first non-disabled index, else `-1`. -/
def nextFocusIdx (l : List (Opt V)) (c : Int) : Int :=
  let nextOptionIndex := jsFindIndexI l (fun o i => !o.disabled && decide (c < (i : Int)))
  let firstOptionIndex := jsFindIndex l (fun o => !o.disabled)
  if nextOptionIndex = -1 then firstOptionIndex else nextOptionIndex

/-- ArrowUp target (lines 298-308): last non-disabled index strictly
before `c`, else last non-disabled index, else `-1`. -/
def prevFocusIdx (l : List (Opt V)) (c : Int) : Int :=
  let prevOptionIndex := jsReduceLastIdx l (fun o i => !o.disabled && decide ((i : Int) < c))
  let lastOptionIndex := jsReduceLastIdx l (fun o _ => !o.disabled)
  if prevOptionIndex = -1 then lastOptionIndex else prevOptionIndex

/-- `handleNavigation` (lines 282-352), the document-level keydown
handler: a no-op when the menu is closed, otherwise the if-chain of the
source threaded over the state.  `currentIndex` is captured once at
entry (line 284). -/
def handleNavigation [DecidableEq V] [JsTruthy V] (p : Props V) (s : State V) (e : KeyEvent) :
    State V × List (Ev V) :=
  if s.menuOpen = true then
    let currentIndex := s.focusedOption
    let s1 := if e.key = "ArrowDown" then
        { s with focusedOption := nextFocusIdx (availableOptionsGroupedFlat p s) currentIndex }
      else s
    let s2 := if e.key = "ArrowUp" then
        { s1 with focusedOption := prevFocusIdx (availableOptionsGroupedFlat p s1) currentIndex }
      else s1
    let step3 := if e.key = "Enter" then
        match jsGetElem (availableOptionsGroupedFlat p s2) currentIndex with
        | some selectedOption => setOption p s2 selectedOption
        | none => (s2, [])
      else (s2, [])
    let s3 := step3.1
    let step4 := if e.code = "Space" ∧ s3.search = "" then
        match jsGetElem (availableOptionsGroupedFlat p s3) currentIndex with
        | some selectedOption => setOption p s3 selectedOption
        | none => (s3, [])
      else (s3, [])
    let s4 := step4.1
    let s5 := if e.key = "Escape" then { s4 with menuOpen := false, search := "" } else s4
    let hasSelectedValue := if p.isMulti = true then decide (0 < (asList s5.selected).length)
      else selTruthy s5.selected
    let s6 := if e.key = "Backspace" ∧ s5.search = "" ∧ hasSelectedValue = true then
        { s5 with selected := if p.isMulti = true then SelVal.many ((asList s5.selected).dropLast)
            else SelVal.one none }
      else s5
    (s6, step3.2 ++ step4.2)
  else (s, [])

/-- A change of the search input together with the watcher on `search`
(lines 399-409): typing while the menu is closed opens it (which may
re-seed the focus); the `search` emit is not modelled. -/
def searchInput (p : Props V) (s : State V) (t : String) : State V :=
  let s := { s with search := t }
  if t ≠ "" ∧ s.menuOpen = false then openMenu p s else s

def arrowDownEv : KeyEvent := ⟨"ArrowDown", "ArrowDown"⟩

def arrowUpEv : KeyEvent := ⟨"ArrowUp", "ArrowUp"⟩

def enterEv : KeyEvent := ⟨"Enter", "Enter"⟩

def spaceEv : KeyEvent := ⟨" ", "Space"⟩

def backspaceEv : KeyEvent := ⟨"Backspace", "Backspace"⟩

end VueSelect


namespace VueSelect

/-! ## Helper lemmas -/

/-- Characterisation of the index-aware `findIndex` model: either no
element (at its index) satisfies the callback and the result is `-1`,
or the result is the first index whose element satisfies it. -/
theorem jsFindIndexIAux_spec {α : Type} (p : α → Nat → Bool) (l : List α) (n : Nat) :
    (jsFindIndexIAux p l n = -1 ∧ ∀ i a, l[i]? = some a → p a (n + i) = false) ∨
    (∃ i a, l[i]? = some a ∧ p a (n + i) = true ∧
      jsFindIndexIAux p l n = ((n + i : Nat) : Int) ∧
      ∀ j b, j < i → l[j]? = some b → p b (n + j) = false) := by
  induction l generalizing n with
  | nil =>
    left
    refine ⟨rfl, ?_⟩
    intro i a h
    simp at h
  | cons a as ih =>
    by_cases hpa : p a n = true
    · right
      refine ⟨0, a, by simp, by simpa using hpa, ?_, ?_⟩
      · simp [jsFindIndexIAux, hpa]
      · intro j b hj
        exact absurd hj (Nat.not_lt_zero j)
    · have hpa' : p a n = false := by
        cases h : p a n
        · rfl
        · exact absurd h hpa
      have hstep : jsFindIndexIAux p (a :: as) n = jsFindIndexIAux p as (n + 1) := by
        simp [jsFindIndexIAux, hpa']
      rcases ih (n + 1) with ⟨h1, h2⟩ | ⟨i, b, hget, hp, hres, hmin⟩
      · left
        refine ⟨hstep.trans h1, ?_⟩
        intro i c hc
        match i with
        | 0 =>
          simp at hc
          subst hc
          simpa using hpa'
        | Nat.succ i =>
          simp only [List.getElem?_cons_succ] at hc
          have := h2 i c hc
          have harith : n + 1 + i = n + (i + 1) := by omega
          rwa [harith] at this
      · right
        refine ⟨i + 1, b, by simpa using hget, ?_, ?_, ?_⟩
        · have harith : n + (i + 1) = n + 1 + i := by omega
          rwa [harith]
        · rw [hstep, hres]
          congr 1
          omega
        · intro j c hj hc
          match j with
          | 0 =>
            simp at hc
            subst hc
            simpa using hpa'
          | Nat.succ j =>
            simp only [List.getElem?_cons_succ] at hc
            have := hmin j c (by omega) hc
            have harith : n + 1 + j = n + (j + 1) := by omega
            rwa [harith] at this

/-- Characterisation of the `reduce` model: either no element matches
and the accumulator comes through, or the result is the last matching
index. -/
theorem jsReduceLastIdxAux_spec {α : Type} (p : α → Nat → Bool) (l : List α) (n : Nat)
    (acc : Int) :
    (jsReduceLastIdxAux p l n acc = acc ∧ ∀ i a, l[i]? = some a → p a (n + i) = false) ∨
    (∃ i a, l[i]? = some a ∧ p a (n + i) = true ∧
      jsReduceLastIdxAux p l n acc = ((n + i : Nat) : Int) ∧
      ∀ j b, i < j → l[j]? = some b → p b (n + j) = false) := by
  induction l generalizing n acc with
  | nil =>
    left
    refine ⟨rfl, ?_⟩
    intro i a h
    simp at h
  | cons a as ih =>
    have hstep : jsReduceLastIdxAux p (a :: as) n acc
        = jsReduceLastIdxAux p as (n + 1) (if p a n then (n : Int) else acc) := by
      simp [jsReduceLastIdxAux]
    rcases ih (n + 1) (if p a n then (n : Int) else acc) with ⟨h1, h2⟩ | ⟨i, b, hget, hp, hres, hmax⟩
    · by_cases hpa : p a n = true
      · right
        refine ⟨0, a, by simp, by simpa using hpa, ?_, ?_⟩
        · rw [hstep, h1, hpa]
          simp
        · intro j c hj hc
          match j with
          | 0 => exact absurd hj (Nat.lt_irrefl 0)
          | Nat.succ j =>
            simp only [List.getElem?_cons_succ] at hc
            have := h2 j c hc
            have harith : n + 1 + j = n + (j + 1) := by omega
            rwa [harith] at this
      · have hpa' : p a n = false := by
          cases h : p a n
          · rfl
          · exact absurd h hpa
        left
        refine ⟨by rw [hstep, h1, hpa']; simp, ?_⟩
        intro i c hc
        match i with
        | 0 =>
          simp at hc
          subst hc
          simpa using hpa'
        | Nat.succ i =>
          simp only [List.getElem?_cons_succ] at hc
          have := h2 i c hc
          have harith : n + 1 + i = n + (i + 1) := by omega
          rwa [harith] at this
    · right
      refine ⟨i + 1, b, by simpa using hget, ?_, ?_, ?_⟩
      · have harith : n + (i + 1) = n + 1 + i := by omega
        rwa [harith]
      · rw [hstep, hres]
        congr 1
        omega
      · intro j c hj hc
        match j with
        | 0 => exact absurd hj (Nat.not_lt_zero _)
        | Nat.succ j =>
          simp only [List.getElem?_cons_succ] at hc
          have := hmax j c (by omega) hc
          have harith : n + 1 + j = n + (j + 1) := by omega
          rwa [harith] at this

/-- An index of the flat list that holds a non-disabled option. -/
def EnabledAt (l : List (Opt V)) (i : Nat) : Prop :=
  ∃ o, l[i]? = some o ∧ o.disabled = false

theorem jsFindIndexI_spec {α : Type} (l : List α) (p : α → Nat → Bool) :
    (jsFindIndexI l p = -1 ∧ ∀ i a, l[i]? = some a → p a i = false) ∨
    (∃ i a, l[i]? = some a ∧ p a i = true ∧ jsFindIndexI l p = (i : Int) ∧
      ∀ j b, j < i → l[j]? = some b → p b j = false) := by
  rcases jsFindIndexIAux_spec p l 0 with ⟨h1, h2⟩ | ⟨i, a, hget, hp, hres, hmin⟩
  · left
    exact ⟨h1, fun i a h => by simpa using h2 i a h⟩
  · right
    exact ⟨i, a, hget, by simpa using hp, by simpa using hres,
      fun j b hj h => by simpa using hmin j b hj h⟩

theorem jsReduceLastIdx_spec {α : Type} (l : List α) (p : α → Nat → Bool) :
    (jsReduceLastIdx l p = -1 ∧ ∀ i a, l[i]? = some a → p a i = false) ∨
    (∃ i a, l[i]? = some a ∧ p a i = true ∧ jsReduceLastIdx l p = (i : Int) ∧
      ∀ j b, i < j → l[j]? = some b → p b j = false) := by
  rcases jsReduceLastIdxAux_spec p l 0 (-1) with ⟨h1, h2⟩ | ⟨i, a, hget, hp, hres, hmax⟩
  · left
    exact ⟨h1, fun i a h => by simpa using h2 i a h⟩
  · right
    exact ⟨i, a, hget, by simpa using hp, by simpa using hres,
      fun j b hj h => by simpa using hmax j b hj h⟩

theorem nextFocusIdx_of_no_enabled (l : List (Opt V)) (c : Int)
    (h : ∀ i, ¬ EnabledAt l i) : nextFocusIdx l c = -1 := by
  have h1 : jsFindIndexI l (fun o i => !o.disabled && decide (c < (i : Int))) = -1 := by
    rcases jsFindIndexI_spec l (fun o i => !o.disabled && decide (c < (i : Int))) with
      ⟨he, _⟩ | ⟨i, a, hget, hp, _, _⟩
    · exact he
    · refine absurd ?_ (h i)
      simp only [Bool.and_eq_true, Bool.not_eq_true', decide_eq_true_eq] at hp
      exact ⟨a, hget, hp.1⟩
  have h2 : jsFindIndex l (fun o => !o.disabled) = -1 := by
    rcases jsFindIndexI_spec l (fun (o : Opt V) (_ : Nat) => !o.disabled) with
      ⟨he, _⟩ | ⟨i, a, hget, hp, _, _⟩
    · exact he
    · refine absurd ?_ (h i)
      simp only [Bool.not_eq_true'] at hp
      exact ⟨a, hget, hp⟩
  simp [nextFocusIdx, jsFindIndex] at h2 ⊢
  simp [h1, h2]

theorem prevFocusIdx_of_no_enabled (l : List (Opt V)) (c : Int)
    (h : ∀ i, ¬ EnabledAt l i) : prevFocusIdx l c = -1 := by
  have h1 : jsReduceLastIdx l (fun o i => !o.disabled && decide ((i : Int) < c)) = -1 := by
    rcases jsReduceLastIdx_spec l (fun o i => !o.disabled && decide ((i : Int) < c)) with
      ⟨he, _⟩ | ⟨i, a, hget, hp, _, _⟩
    · exact he
    · refine absurd ?_ (h i)
      simp only [Bool.and_eq_true, Bool.not_eq_true', decide_eq_true_eq] at hp
      exact ⟨a, hget, hp.1⟩
  have h2 : jsReduceLastIdx l (fun (o : Opt V) (_ : Nat) => !o.disabled) = -1 := by
    rcases jsReduceLastIdx_spec l (fun (o : Opt V) (_ : Nat) => !o.disabled) with
      ⟨he, _⟩ | ⟨i, a, hget, hp, _, _⟩
    · exact he
    · refine absurd ?_ (h i)
      simp only [Bool.not_eq_true'] at hp
      exact ⟨a, hget, hp⟩
  simp [prevFocusIdx, h1, h2]

theorem nextFocusIdx_isLeast_after (l : List (Opt V)) (c : Int)
    (h : ∃ i, EnabledAt l i ∧ c < (i : Int)) :
    ∃ n : Nat, nextFocusIdx l c = (n : Int) ∧
      IsLeast {i : Nat | EnabledAt l i ∧ c < (i : Int)} n := by
  rcases jsFindIndexI_spec l (fun o i => !o.disabled && decide (c < (i : Int))) with
    ⟨he, hall⟩ | ⟨i, a, hget, hp, hres, hmin⟩
  · exfalso
    obtain ⟨i, ⟨o, hio, ho⟩, hci⟩ := h
    have := hall i o hio
    simp [ho, hci] at this
  · refine ⟨i, ?_, ?_, ?_⟩
    · simp only [nextFocusIdx]
      rw [hres, if_neg (by omega)]
    · simp only [Bool.and_eq_true, Bool.not_eq_true', decide_eq_true_eq] at hp
      exact ⟨⟨a, hget, hp.1⟩, hp.2⟩
    · rintro j ⟨⟨b, hjb, hb⟩, hcj⟩
      by_contra hlt
      have := hmin j b (by omega) hjb
      simp [hb, hcj] at this

theorem nextFocusIdx_isLeast_wrap (l : List (Opt V)) (c : Int)
    (hafter : ¬ ∃ i, EnabledAt l i ∧ c < (i : Int)) (h : ∃ i, EnabledAt l i) :
    ∃ n : Nat, nextFocusIdx l c = (n : Int) ∧ IsLeast {i : Nat | EnabledAt l i} n := by
  have h1 : jsFindIndexI l (fun o i => !o.disabled && decide (c < (i : Int))) = -1 := by
    rcases jsFindIndexI_spec l (fun o i => !o.disabled && decide (c < (i : Int))) with
      ⟨he, _⟩ | ⟨i, a, hget, hp, _, _⟩
    · exact he
    · exfalso
      simp only [Bool.and_eq_true, Bool.not_eq_true', decide_eq_true_eq] at hp
      exact hafter ⟨i, ⟨a, hget, hp.1⟩, hp.2⟩
  rcases jsFindIndexI_spec l (fun (o : Opt V) (_ : Nat) => !o.disabled) with
    ⟨he, hall⟩ | ⟨i, a, hget, hp, hres, hmin⟩
  · exfalso
    obtain ⟨i, o, hio, ho⟩ := h
    have := hall i o hio
    simp [ho] at this
  · refine ⟨i, ?_, ?_, ?_⟩
    · simp only [nextFocusIdx]
      rw [h1, if_pos rfl]
      simpa [jsFindIndex] using hres
    · simp only [Bool.not_eq_true'] at hp
      exact ⟨a, hget, hp⟩
    · rintro j ⟨b, hjb, hb⟩
      by_contra hlt
      have := hmin j b (by omega) hjb
      simp [hb] at this

theorem prevFocusIdx_isGreatest_before (l : List (Opt V)) (c : Int)
    (h : ∃ i, EnabledAt l i ∧ (i : Int) < c) :
    ∃ n : Nat, prevFocusIdx l c = (n : Int) ∧
      IsGreatest {i : Nat | EnabledAt l i ∧ (i : Int) < c} n := by
  rcases jsReduceLastIdx_spec l (fun o i => !o.disabled && decide ((i : Int) < c)) with
    ⟨he, hall⟩ | ⟨i, a, hget, hp, hres, hmax⟩
  · exfalso
    obtain ⟨i, ⟨o, hio, ho⟩, hci⟩ := h
    have := hall i o hio
    simp [ho, hci] at this
  · refine ⟨i, ?_, ?_, ?_⟩
    · simp only [prevFocusIdx]
      rw [hres, if_neg (by omega)]
    · simp only [Bool.and_eq_true, Bool.not_eq_true', decide_eq_true_eq] at hp
      exact ⟨⟨a, hget, hp.1⟩, hp.2⟩
    · rintro j ⟨⟨b, hjb, hb⟩, hcj⟩
      by_contra hlt
      have := hmax j b (by omega) hjb
      simp [hb, hcj] at this

theorem prevFocusIdx_isGreatest_wrap (l : List (Opt V)) (c : Int)
    (hbefore : ¬ ∃ i, EnabledAt l i ∧ (i : Int) < c) (h : ∃ i, EnabledAt l i) :
    ∃ n : Nat, prevFocusIdx l c = (n : Int) ∧ IsGreatest {i : Nat | EnabledAt l i} n := by
  have h1 : jsReduceLastIdx l (fun o i => !o.disabled && decide ((i : Int) < c)) = -1 := by
    rcases jsReduceLastIdx_spec l (fun o i => !o.disabled && decide ((i : Int) < c)) with
      ⟨he, _⟩ | ⟨i, a, hget, hp, _, _⟩
    · exact he
    · exfalso
      simp only [Bool.and_eq_true, Bool.not_eq_true', decide_eq_true_eq] at hp
      exact hbefore ⟨i, ⟨a, hget, hp.1⟩, hp.2⟩
  rcases jsReduceLastIdx_spec l (fun (o : Opt V) (_ : Nat) => !o.disabled) with
    ⟨he, hall⟩ | ⟨i, a, hget, hp, hres, hmax⟩
  · exfalso
    obtain ⟨i, o, hio, ho⟩ := h
    have := hall i o hio
    simp [ho] at this
  · refine ⟨i, ?_, ?_, ?_⟩
    · simp only [prevFocusIdx]
      rw [h1, if_pos rfl]
      simpa using hres
    · simp only [Bool.not_eq_true'] at hp
      exact ⟨a, hget, hp⟩
    · rintro j ⟨b, hjb, hb⟩
      by_contra hlt
      have := hmax j b (by omega) hjb
      simp [hb] at this

theorem nextFocusIdx_enabled (l : List (Opt V)) (c : Int) (n : Nat)
    (h : nextFocusIdx l c = (n : Int)) : EnabledAt l n := by
  by_cases hen : ∃ i, EnabledAt l i
  · by_cases hafter : ∃ i, EnabledAt l i ∧ c < (i : Int)
    · obtain ⟨m, hm, hmem, _⟩ := nextFocusIdx_isLeast_after l c hafter
      have : m = n := by omega
      exact this ▸ hmem.1
    · obtain ⟨m, hm, hmem, _⟩ := nextFocusIdx_isLeast_wrap l c hafter hen
      have : m = n := by omega
      exact this ▸ hmem
  · exfalso
    have := nextFocusIdx_of_no_enabled l c (by push_neg at hen; exact hen)
    omega

theorem prevFocusIdx_enabled (l : List (Opt V)) (c : Int) (n : Nat)
    (h : prevFocusIdx l c = (n : Int)) : EnabledAt l n := by
  by_cases hen : ∃ i, EnabledAt l i
  · by_cases hbefore : ∃ i, EnabledAt l i ∧ (i : Int) < c
    · obtain ⟨m, hm, hmem, _⟩ := prevFocusIdx_isGreatest_before l c hbefore
      have : m = n := by omega
      exact this ▸ hmem.1
    · obtain ⟨m, hm, hmem, _⟩ := prevFocusIdx_isGreatest_wrap l c hbefore hen
      have : m = n := by omega
      exact this ▸ hmem
  · exfalso
    have := prevFocusIdx_of_no_enabled l c (by push_neg at hen; exact hen)
    omega

theorem handleNavigation_arrowDown [DecidableEq V] [JsTruthy V] (p : Props V) (s : State V)
    (hm : s.menuOpen = true) :
    handleNavigation p s arrowDownEv
      = ({ s with focusedOption :=
            nextFocusIdx (availableOptionsGroupedFlat p s) s.focusedOption }, []) := by
  simp +decide [handleNavigation, arrowDownEv, hm]

theorem handleNavigation_arrowUp [DecidableEq V] [JsTruthy V] (p : Props V) (s : State V)
    (hm : s.menuOpen = true) :
    handleNavigation p s arrowUpEv
      = ({ s with focusedOption :=
            prevFocusIdx (availableOptionsGroupedFlat p s) s.focusedOption }, []) := by
  simp +decide [handleNavigation, arrowUpEv, hm]

/-! ## Claims -/

/-- C6: for every flattened visible option list and current focused
index, ArrowDown (`nextFocusIdx`) and ArrowUp (`prevFocusIdx`) never
set focus to a disabled option; ArrowDown picks the first non-disabled
index strictly after the current one, wrapping to the first
non-disabled index of the whole list if none exists; ArrowUp is the
symmetric backward scan wrapping to the last non-disabled index; on a
list with no enabled option both produce the sentinel `-1`; and these
are exactly the focus values `handleNavigation` installs on
ArrowDown/ArrowUp while the menu is open. -/
theorem C6_focus_navigation {V : Type} [DecidableEq V] [JsTruthy V] :
    (∀ (l : List (Opt V)) (c : Int),
      ((∃ i, EnabledAt l i ∧ c < (i : Int)) →
        ∃ n : Nat, nextFocusIdx l c = (n : Int) ∧
          IsLeast {i : Nat | EnabledAt l i ∧ c < (i : Int)} n)
      ∧ ((¬ ∃ i, EnabledAt l i ∧ c < (i : Int)) → (∃ i, EnabledAt l i) →
        ∃ n : Nat, nextFocusIdx l c = (n : Int) ∧ IsLeast {i : Nat | EnabledAt l i} n)
      ∧ ((∃ i, EnabledAt l i ∧ (i : Int) < c) →
        ∃ n : Nat, prevFocusIdx l c = (n : Int) ∧
          IsGreatest {i : Nat | EnabledAt l i ∧ (i : Int) < c} n)
      ∧ ((¬ ∃ i, EnabledAt l i ∧ (i : Int) < c) → (∃ i, EnabledAt l i) →
        ∃ n : Nat, prevFocusIdx l c = (n : Int) ∧ IsGreatest {i : Nat | EnabledAt l i} n)
      ∧ ((∀ i, ¬ EnabledAt l i) → nextFocusIdx l c = -1 ∧ prevFocusIdx l c = -1)
      ∧ (∀ n : Nat, nextFocusIdx l c = (n : Int) → EnabledAt l n)
      ∧ (∀ n : Nat, prevFocusIdx l c = (n : Int) → EnabledAt l n))
    ∧ (∀ (p : Props V) (s : State V), s.menuOpen = true →
        (handleNavigation p s arrowDownEv).1.focusedOption
          = nextFocusIdx (availableOptionsGroupedFlat p s) s.focusedOption
        ∧ (handleNavigation p s arrowUpEv).1.focusedOption
          = prevFocusIdx (availableOptionsGroupedFlat p s) s.focusedOption) := by
  constructor
  · intro l c
    exact ⟨nextFocusIdx_isLeast_after l c,
      nextFocusIdx_isLeast_wrap l c,
      prevFocusIdx_isGreatest_before l c,
      prevFocusIdx_isGreatest_wrap l c,
      fun h => ⟨nextFocusIdx_of_no_enabled l c h, prevFocusIdx_of_no_enabled l c h⟩,
      nextFocusIdx_enabled l c,
      prevFocusIdx_enabled l c⟩
  · intro p s hm
    constructor
    · rw [handleNavigation_arrowDown p s hm]
    · rw [handleNavigation_arrowUp p s hm]

theorem C6_focus_navigation_witness :
    (∃ n : Nat,
      nextFocusIdx ([⟨1, "A", none, false⟩, ⟨2, "B", none, true⟩] : List (Opt Int)) (-1)
        = (n : Int) ∧
      IsLeast {i : Nat |
        EnabledAt ([⟨1, "A", none, false⟩, ⟨2, "B", none, true⟩] : List (Opt Int)) i ∧
          (-1 : Int) < (i : Int)} n) ∧
    nextFocusIdx ([⟨1, "A", none, true⟩] : List (Opt Int)) 0 = -1 ∧
    prevFocusIdx ([⟨1, "A", none, true⟩] : List (Opt Int)) 0 = -1 := by
  have hno : ∀ i, ¬ EnabledAt ([⟨1, "A", none, true⟩] : List (Opt Int)) i := by
    rintro i ⟨o, ho, hd⟩
    match i with
    | 0 =>
      simp only [List.getElem?_cons_zero, Option.some.injEq] at ho
      rw [← ho] at hd
      simp at hd
    | Nat.succ j =>
      simp at ho
  refine ⟨?_, ?_, ?_⟩
  · exact ((C6_focus_navigation (V := Int)).1 _ (-1)).1
      ⟨0, ⟨⟨1, "A", none, false⟩, rfl, rfl⟩, by decide⟩
  · exact (((C6_focus_navigation (V := Int)).1 _ 0).2.2.2.2.1 hno).1
  · exact (((C6_focus_navigation (V := Int)).1 _ 0).2.2.2.2.1 hno).2

theorem handleNavigation_backspace_multi [DecidableEq V] [JsTruthy V] (p : Props V)
    (s : State V) (hm : s.menuOpen = true) (hs : s.search = "") (hmu : p.isMulti = true)
    (hlen : 0 < (asList s.selected).length) :
    handleNavigation p s backspaceEv
      = ({ s with selected := SelVal.many ((asList s.selected).dropLast) }, []) := by
  simp +decide [handleNavigation, backspaceEv, hm, hs, hmu, hlen]

theorem handleNavigation_backspace_single [DecidableEq V] [JsTruthy V] (p : Props V)
    (s : State V) (hm : s.menuOpen = true) (hs : s.search = "") (hmu : p.isMulti = false)
    (htr : selTruthy s.selected = true) :
    handleNavigation p s backspaceEv = ({ s with selected := SelVal.one none }, []) := by
  simp +decide [handleNavigation, backspaceEv, hm, hs, hmu, htr]

theorem handleNavigation_backspace_events [DecidableEq V] [JsTruthy V] (p : Props V)
    (s : State V) (hm : s.menuOpen = true) :
    (handleNavigation p s backspaceEv).2 = [] := by
  simp +decide [handleNavigation, backspaceEv, hm, apply_ite]

/-- C5: in multi mode, for every options list, search text and
selection, no option whose value is contained in the selection appears
in the visible option set. -/
theorem C5_multi_visible_excludes_selected {V : Type} [DecidableEq V] (p : Props V)
    (s : State V) (o : Opt V) (hm : p.isMulti = true)
    (ho : o ∈ availableOptions p s) : o.value ∉ asList s.selected := by
  have key : ∀ X : List (Opt V),
      o ∈ X.filter (fun o => !(jsIncludes (asList s.selected) o.value)) →
        o.value ∉ asList s.selected := by
    intro X hX
    have := (List.mem_filter.mp hX).2
    simpa [jsIncludes] using this
  simp only [availableOptions, hm] at ho
  by_cases hsearch : p.isSearchable = true ∧ s.search ≠ ""
  · rw [if_pos hsearch] at ho
    simp only [eq_self_iff_true, if_true] at ho
    exact key _ ho
  · rw [if_neg hsearch] at ho
    simp only [eq_self_iff_true, if_true] at ho
    exact key _ ho

theorem C5_multi_visible_excludes_selected_witness :
    (⟨1, "A", none, false⟩ : Opt Int).value ∉ asList (SelVal.many ([2] : List Int)) :=
  C5_multi_visible_excludes_selected
    ({ options := [⟨1, "A", none, false⟩, ⟨2, "B", none, false⟩], isMulti := true } : Props Int)
    { selected := SelVal.many [2] } ⟨1, "A", none, false⟩ rfl (by decide)

/-- C3: `clear` always resets the selection to the mode empty value
(`undefined` in single mode, `[]` in multi mode), closes the menu,
clears the search text, and emits exactly one `optionDeselected`
notification whose payload is the previously single-selected option in
single mode and `null` in multi mode. -/
theorem C3_clear_resets_and_notifies {V : Type} [DecidableEq V] (p : Props V) (s : State V) :
    (clear p s).1.selected
      = (if p.isMulti = true then SelVal.many [] else SelVal.one none)
    ∧ (clear p s).1.menuOpen = false
    ∧ (clear p s).1.search = ""
    ∧ (clear p s).2
      = [Ev.optionDeselected (if p.isMulti = true then none
          else p.options.find? (fun o => scalarEq s.selected o.value))] := by
  by_cases hm : p.isMulti = true
  · simp [clear, hm]
  · have hm' : p.isMulti = false := by
      cases h : p.isMulti
      · rfl
      · exact absurd h hm
    refine ⟨by simp [clear, hm'], by simp [clear, hm'], by simp [clear, hm'], ?_⟩
    simp only [clear, hm', Bool.false_eq_true, if_false]
    cases hfind : p.options.find? (fun o => scalarEq s.selected o.value) with
    | none => simp [selectedOptions, hm', jsHead, hfind]
    | some f => simp [selectedOptions, hm', jsHead, hfind]

/-- C10: in multi mode with the control enabled, `removeOption` emits
`optionDeselected(option)` even when the value does not occur in the
selection, and the selection is then unchanged. -/
theorem C10_removeOption_absent_value {V : Type} [DecidableEq V] (p : Props V) (s : State V)
    (o : Opt V) (l : List V) (hm : p.isMulti = true) (hd : p.isDisabled = false)
    (hsel : s.selected = SelVal.many l) (habs : o.value ∉ l) :
    (removeOption p s o).1 = s
    ∧ (removeOption p s o).2 = [Ev.optionDeselected (some o)] := by
  have hfilter : l.filter (fun v => decide (v ≠ o.value)) = l :=
    List.filter_eq_self.mpr (fun v hv => by
      simp only [decide_eq_true_eq]
      intro heq
      exact habs (heq ▸ hv))
  obtain ⟨sel, srch, mo, fo⟩ := s
  have hsel' : sel = SelVal.many l := hsel
  subst hsel'
  constructor
  · simp [removeOption, hm, hd, asList]
    intro a ha heq
    exact habs (heq ▸ ha)
  · simp [removeOption, hm, hd]

theorem C10_removeOption_absent_value_witness :
    (removeOption ({ options := [⟨1, "A", none, false⟩], isMulti := true } : Props Int)
        { selected := SelVal.many [2] } ⟨1, "A", none, false⟩).1
      = ({ selected := SelVal.many [2] } : State Int)
    ∧ (removeOption ({ options := [⟨1, "A", none, false⟩], isMulti := true } : Props Int)
        { selected := SelVal.many [2] } ⟨1, "A", none, false⟩).2
      = [Ev.optionDeselected (some ⟨1, "A", none, false⟩)] :=
  C10_removeOption_absent_value _ _ _ [2] rfl rfl rfl (by decide)

/-- C1 counterexample: with the multi selection `[1, 2, 1]`,
deselecting an option with value `1` yields `[2]` — the code removes
ALL occurrences — while removing only the first occurrence (what the
claim states) would yield `[2, 1]`. -/
theorem C1_counterexample :
    (removeOption ({ options := [⟨1, "one", none, false⟩, ⟨2, "two", none, false⟩], isMulti := true } : Props Int)
      { selected := SelVal.many [1, 2, 1] } ⟨1, "one", none, false⟩).1.selected
      = SelVal.many [2]
    ∧ ([1, 2, 1] : List Int).erase 1 = [2, 1]
    ∧ (SelVal.many [2] : SelVal Int) ≠ SelVal.many [2, 1] := by
  exact ⟨by decide, by decide, by decide⟩

/-- C1 (amended): in multi mode with the control enabled,
`removeOption` removes EVERY occurrence of `option.value` from the
selection sequence (duplicates included), and it is a no-op when the
control is disabled. -/
theorem C1_removeOption_amended {V : Type} [DecidableEq V] (p : Props V) (s : State V)
    (o : Opt V) :
    (p.isMulti = true → p.isDisabled = false →
      (removeOption p s o).1.selected
        = SelVal.many ((asList s.selected).filter (fun v => decide (v ≠ o.value)))
      ∧ o.value ∉ asList (removeOption p s o).1.selected)
    ∧ (p.isDisabled = true → removeOption p s o = (s, [])) := by
  constructor
  · intro hm hd
    constructor
    · simp [removeOption, hm, hd]
    · simp [removeOption, hm, hd, asList, List.mem_filter]
  · intro hd
    simp [removeOption, hd]

theorem C1_removeOption_amended_witness :
    (removeOption ({ options := [⟨1, "one", none, false⟩, ⟨2, "two", none, false⟩], isMulti := true } : Props Int)
      { selected := SelVal.many [1, 2, 1] } ⟨1, "one", none, false⟩).1.selected
      = SelVal.many [2] := by
  have h := (C1_removeOption_amended
    ({ options := [⟨1, "one", none, false⟩, ⟨2, "two", none, false⟩], isMulti := true } : Props Int)
    { selected := SelVal.many [1, 2, 1] } ⟨1, "one", none, false⟩).1 rfl rfl
  exact h.1.trans (by decide)

/-- Scenario for C2: multi mode, `closeOnSelect` off, visible list
`[A, B]`, menu open, focused index `1`. -/
def propsC2 : Props Int :=
  { options := [⟨1, "A", none, false⟩, ⟨2, "B", none, false⟩], isMulti := true, closeOnSelect := false }

def stateC2 : State Int := { selected := SelVal.many [], menuOpen := true, focusedOption := 1 }

/-- The state after selecting option `A` in the C2 scenario. -/
def stateC2after : State Int := (setOption propsC2 stateC2 ⟨1, "A", none, false⟩).1

/-- C2 counterexample: selecting `A` shrinks the flat visible list to
length `1` while the focused index stays `1` — an index outside
`[0, len)` of the new flat list IS silently kept. -/
theorem C2_counterexample :
    stateC2after.focusedOption = 1
    ∧ (availableOptionsGroupedFlat propsC2 stateC2after).length = 1
    ∧ ¬ (stateC2after.focusedOption
          < ((availableOptionsGroupedFlat propsC2 stateC2after).length : Int)) := by
  decide

/-- C2 (amended): after a recomputation of the visible option set the
focused index is NOT re-resolved: selection changes (`setOption`,
`removeOption`) and search-text changes while the menu is open leave
`focusedOption` untouched, so an index pointing at now-absent content
can be silently kept (out-of-range focus is still harmless for
selection, since Enter/Space guard the indexing — see C9). -/
theorem C2_focus_not_reresolved {V : Type} [DecidableEq V] (p : Props V) (s : State V)
    (o : Opt V) (t : String) (hm : s.menuOpen = true) :
    (setOption p s o).1.focusedOption = s.focusedOption
    ∧ (removeOption p s o).1.focusedOption = s.focusedOption
    ∧ (searchInput p s t).focusedOption = s.focusedOption := by
  refine ⟨?_, ?_, ?_⟩
  · by_cases hdis : o.disabled = true
    · simp [setOption, hdis]
    · by_cases hc : p.closeOnSelect = true <;>
        simp [setOption, hdis, hc]
  · by_cases hmd : p.isMulti = true ∧ p.isDisabled = false <;>
      simp [removeOption, hmd]
  · simp [searchInput, hm]

theorem C2_focus_not_reresolved_witness :
    (setOption ({ options := [⟨1, "A", none, false⟩], isMulti := true, closeOnSelect := false } : Props Int)
      { selected := SelVal.many [], menuOpen := true, focusedOption := 1 }
      ⟨1, "A", none, false⟩).1.focusedOption
      = ({ selected := SelVal.many [], menuOpen := true, focusedOption := 1 } : State Int).focusedOption :=
  (C2_focus_not_reresolved _ _ ⟨1, "A", none, false⟩ "" rfl).1

/-- C4 counterexample: with the whole control disabled, `clear` still
mutates the state and still emits a notification — the claim that every
mutating operation is ignored while disabled fails. -/
theorem C4_counterexample :
    (clear ({ options := [⟨1, "A", none, false⟩], isDisabled := true } : Props Int)
        { selected := SelVal.one (some 1), menuOpen := true }).1
      ≠ ({ selected := SelVal.one (some 1), menuOpen := true } : State Int)
    ∧ (clear ({ options := [⟨1, "A", none, false⟩], isDisabled := true } : Props Int)
        { selected := SelVal.one (some 1), menuOpen := true }).2 ≠ [] := by
  decide

/-- C4 (amended): only `removeOption` is guarded by the control-level
disabled flag (it is then a no-op with no notification); `setOption`,
`clear` and the Backspace remove-last path do not consult
`isDisabled` and proceed normally even while the control is disabled
(the disabled UI merely makes them unreachable through the input and
buttons, but the document-level keydown handler stays active). -/
theorem C4_disabled_amended {V : Type} [DecidableEq V] [JsTruthy V] (p : Props V)
    (hd : p.isDisabled = true) :
    (∀ (s : State V) (o : Opt V), removeOption p s o = (s, []))
    ∧ (∀ s : State V, (clear p s).2 ≠ [])
    ∧ (∀ (s : State V) (o : Opt V), o.disabled = false →
        (setOption p s o).2 = [Ev.optionSelected o])
    ∧ (∀ s : State V, p.isMulti = true → s.menuOpen = true → s.search = "" →
        0 < (asList s.selected).length →
        (handleNavigation p s backspaceEv).1.selected
          = SelVal.many ((asList s.selected).dropLast)) := by
  refine ⟨?_, ?_, ?_, ?_⟩
  · intro s o
    simp [removeOption, hd]
  · intro s
    by_cases hm : p.isMulti = true <;> simp [clear, hm]
  · intro s o ho
    by_cases hc : p.closeOnSelect = true <;> simp [setOption, ho, hc]
  · intro s hmu hm hs hlen
    rw [handleNavigation_backspace_multi p s hm hs hmu hlen]

theorem C4_disabled_amended_witness :
    removeOption ({ options := [⟨1, "A", none, false⟩], isMulti := true, isDisabled := true } : Props Int)
      { selected := SelVal.many [1] } ⟨1, "A", none, false⟩
      = (({ selected := SelVal.many [1] } : State Int), ([] : List (Ev Int))) :=
  (C4_disabled_amended ({ options := [⟨1, "A", none, false⟩], isMulti := true, isDisabled := true } : Props Int) rfl).1
    { selected := SelVal.many [1] } ⟨1, "A", none, false⟩

/-- Scenario for C7: single mode, options `[A, B, C]`, none disabled,
all other props at their defaults. -/
def propsC7 : Props Int :=
  { options := [⟨1, "A", none, false⟩, ⟨2, "B", none, false⟩, ⟨3, "C", none, false⟩] }

/-- The C7 props with the autofocus-on-open policy disabled. -/
def propsC7noAuto : Props Int := { propsC7 with shouldAutofocusOption := false }

/-- C7 scenario, default props: the menu opened, then ArrowDown pressed twice. -/
def stateC7twoDown : State Int :=
  (handleNavigation propsC7
    (handleNavigation propsC7 (openMenu propsC7 { selected := SelVal.one none }) arrowDownEv).1
    arrowDownEv).1

/-- C7 scenario, autofocus disabled: the menu opened, then ArrowDown pressed twice. -/
def stateC7twoDownNoAuto : State Int :=
  (handleNavigation propsC7noAuto
    (handleNavigation propsC7noAuto
      (openMenu propsC7noAuto { selected := SelVal.one none }) arrowDownEv).1
    arrowDownEv).1

/-- C7 counterexample: with the default autofocus the menu opens with
focus seeded at index `0`, so pressing ArrowDown twice lands on index
`2` (option C), not `1`; Enter then selects C (value `3`), not B. -/
theorem C7_counterexample :
    (openMenu propsC7 { selected := SelVal.one none }).focusedOption = 0
    ∧ stateC7twoDown.focusedOption = 2
    ∧ (2 : Int) ≠ 1
    ∧ (handleNavigation propsC7 stateC7twoDown enterEv).1.selected = SelVal.one (some 3)
    ∧ SelVal.one (some 3) ≠ SelVal.one (some (2 : Int)) := by
  decide

/-- C7 (amended): same scenario but with no option focused when the
menu is open (autofocus disabled, focus at the `-1` sentinel): two
ArrowDown presses move the focused index to `1` (option B), and Enter
then sets the selection to B, closes the menu and emits
`optionSelected(B)`.  (With the default autofocus the menu opens
focused on index `0`, so two ArrowDown presses land on index `2`.) -/
theorem C7_amended_scenario :
    (openMenu propsC7noAuto { selected := SelVal.one none }).focusedOption = -1
    ∧ stateC7twoDownNoAuto.focusedOption = 1
    ∧ (handleNavigation propsC7noAuto stateC7twoDownNoAuto enterEv).1.selected
        = SelVal.one (some 2)
    ∧ (handleNavigation propsC7noAuto stateC7twoDownNoAuto enterEv).1.menuOpen = false
    ∧ (handleNavigation propsC7noAuto stateC7twoDownNoAuto enterEv).2
        = [Ev.optionSelected ⟨2, "B", none, false⟩] := by
  decide

/-- C8 counterexample: single mode, menu open, empty search, selection
present but JS-falsy (value `0`): the code tests `!!selected.value`,
and `!!0` is `false`, so Backspace leaves the selection in place even
though the claim requires it cleared. -/
theorem C8_counterexample :
    (handleNavigation ({ options := [⟨0, "zero", none, false⟩] } : Props Int)
        { selected := SelVal.one (some 0), menuOpen := true } backspaceEv).1.selected
      = SelVal.one (some 0)
    ∧ SelVal.one (some (0 : Int)) ≠ SelVal.one (none : Option Int) := by
  decide

/-- C8 (amended): Backspace with the menu open, empty search and a
non-empty selection — where in single mode the selected value must in
addition be JS-truthy (`!!selected.value`; a falsy value such as `0`
or `""` counts as no selection) — drops the last element of the
sequence in multi mode and clears the value in single mode, and in
both modes emits no notification. -/
theorem C8_backspace_amended {V : Type} [DecidableEq V] [JsTruthy V] (p : Props V)
    (s : State V) (hm : s.menuOpen = true) (hs : s.search = "") :
    (handleNavigation p s backspaceEv).2 = []
    ∧ (p.isMulti = true → 0 < (asList s.selected).length →
        (handleNavigation p s backspaceEv).1.selected
          = SelVal.many ((asList s.selected).dropLast))
    ∧ (p.isMulti = false → selTruthy s.selected = true →
        (handleNavigation p s backspaceEv).1.selected = SelVal.one none) := by
  refine ⟨handleNavigation_backspace_events p s hm, ?_, ?_⟩
  · intro hmu hlen
    rw [handleNavigation_backspace_multi p s hm hs hmu hlen]
  · intro hmu htr
    rw [handleNavigation_backspace_single p s hm hs hmu htr]

theorem C8_backspace_amended_witness :
    (handleNavigation ({ options := [], isMulti := true } : Props Int)
        { selected := SelVal.many [1, 3], menuOpen := true } backspaceEv).1.selected
      = SelVal.many [1]
    ∧ (handleNavigation ({ options := [], isMulti := true } : Props Int)
        { selected := SelVal.many [1, 3], menuOpen := true } backspaceEv).2 = [] := by
  have h := C8_backspace_amended ({ options := [], isMulti := true } : Props Int)
    { selected := SelVal.many [1, 3], menuOpen := true } rfl rfl
  exact ⟨(h.2.1 rfl (by decide)).trans (by decide), h.1⟩

/-- C9: when Enter (or Space with empty search) is pressed while the
menu is open but the focused index is the `-1` sentinel or not a valid
index of the flattened visible list, the indexing is guarded: no
option is selected, nothing is emitted, and the state (selection,
menu-open flag, search text) is completely unchanged. -/
theorem C9_guarded_select_noop {V : Type} [DecidableEq V] [JsTruthy V] (p : Props V)
    (s : State V) (hm : s.menuOpen = true)
    (hidx : jsGetElem (availableOptionsGroupedFlat p s) s.focusedOption = none) :
    handleNavigation p s enterEv = (s, [])
    ∧ (s.search = "" → handleNavigation p s spaceEv = (s, [])) := by
  constructor
  · simp +decide [handleNavigation, enterEv, hm, hidx]
  · intro hs
    simp +decide [handleNavigation, spaceEv, hm, hs, hidx]

theorem C9_guarded_select_noop_witness :
    handleNavigation ({ options := [⟨1, "A", none, false⟩] } : Props Int)
        { selected := SelVal.one none, menuOpen := true } enterEv
      = (({ selected := SelVal.one none, menuOpen := true } : State Int), ([] : List (Ev Int))) :=
  (C9_guarded_select_noop _ { selected := SelVal.one none, menuOpen := true } rfl (by decide)).1

end VueSelect
